import Mathlib

/-!
Shallow embedding of the delay discounting task script
`dd_psychopy_non-ado.py`: the staircase design sequencing of the main
block, the practice block, the estimator bookkeeping and the per-trial
CSV persistence, together with proofs of the sequencing and recording
properties of the session.

Rational numbers model Python's numeric values: every number produced by
the script is an integer repeatedly halved, so the arithmetic is exact.
-/

namespace DDTask

/-- Design of one trial: the four option values (delays in weeks, rewards
in currency units), as in the dict built by the script. -/
structure Design where
  t_ss : ℚ
  t_ll : ℚ
  r_ss : ℚ
  r_ll : ℚ
deriving DecidableEq

/-- Outcome captured by run_trial: which side showed the larger-later
option, whether the pressed key was a left key, and the reaction time. -/
structure Outcome where
  is_ll_on_left : Bool
  key_left : Bool
  rt : ℚ
deriving DecidableEq

/-- Cell values appearing in the output table. -/
inductive Cell where
  | str : String → Cell
  | nat : Nat → Cell
  | rat : ℚ → Cell
deriving DecidableEq

/-- Row of the output table: the pandas Series handed to df.append, an
ordered association list of column label and cell.  A label missing from
a row models a blank (NaN) cell of that row. -/
abbrev Row := List (String × Cell)

/-- DataFrame model: the ordered column labels and the ordered rows. -/
structure DF where
  cols : List String
  rows : List Row
deriving DecidableEq

/-- Append of a labelled row, as pandas DataFrame.append with a Series and
ignore_index=True behaves: series labels that are not yet columns are
appended after the existing columns, and the row goes to the end. -/
def dfAppend (df : DF) (row : Row) : DF :=
  { cols := df.cols ++ (row.map Prod.fst).filter (fun c => !df.cols.contains c),
    rows := df.rows ++ [row] }

/-- Cell of the table at row i, column c; none models an absent column or
a blank cell. -/
def cellAt (df : DF) (i : Nat) (c : String) : Option Cell :=
  df.rows[i]?.bind (fun r => List.lookup c r)

/-- Column labels declared for df_data in the script (the `columns`
list at lines 379 to 384 of the source). -/
def columns : List String :=
  ["block", "trial", "t_ss", "t_ll", "r_ss", "r_ll",
   "is_ll_on_left", "key_left", "response", "rt", "mean_k", "mean_tau"]

/-- Column labels once the first main-phase append has introduced the
sd_k and sd_tau labels. -/
def columns14 : List String := columns ++ ["sd_k", "sd_tau"]

/-- Fixed sequence of t_ll values used by the staircase (weeks), the
`delays` list of the source. -/
def delays : List ℚ := [1, 2, 43/10, 26, 52, 156, 520]

/-- Response coding of run_trial: response is 1 exactly when the pressed
side holds the larger-later option, computed in the source as
int((key_left and is_ll_on_left) or (not key_left and not is_ll_on_left)). -/
def responseOf (is_ll_on_left key_left : Bool) : Nat :=
  if (key_left && is_ll_on_left) || (!key_left && !is_ll_on_left) then 1 else 0

/-- External collaborators: the presenter outcome per global trial index
(none models a presenter failure on that trial), the estimator's random
design for a practice trial, the estimator update success flag per main
trial, and the posterior summaries as functions of the list of
(design, response) observations handed to engine.update so far. -/
structure Env where
  randomDesign : Nat → Design
  outcome : Nat → Option Outcome
  updateOk : Nat → Bool
  postMean : List (Design × Nat) → ℚ × ℚ
  postSd : List (Design × Nat) → ℚ × ℚ

/-- Session state threaded through the two trial loops: the DataFrame,
the history of persisted file snapshots (one per to_csv call), the
estimator's accumulated observations, and the Python loop variables
design, delta and response. -/
structure SessionState where
  df : DF
  persisted : List DF
  obs : List (Design × Nat)
  design : Design
  delta : ℚ
  response : Nat
deriving DecidableEq

/-- Reason a session halted early: the presenter raised, engine.update
raised, or delays[trial // 6] was out of range. -/
inductive Halt where
  | presenter
  | estimator
  | delayIndex
deriving DecidableEq

/-- Result of running (part of) the session: normal completion, or a halt
at a global trial index with the state reached at that point. -/
inductive RunResult where
  | ok : SessionState → RunResult
  | failed : Halt → Nat → SessionState → RunResult
deriving DecidableEq

/-- State carried by a run result. -/
def stateOf : RunResult → SessionState
  | .ok st => st
  | .failed _ _ st => st

/-- True when the run completed normally. -/
def resultIsOk : RunResult → Bool
  | .ok _ => true
  | .failed _ _ _ => false

/-- Row appended for practice trial i (0-based loop index; the recorded
trial number is i + 1); no posterior labels are present. -/
def pracRow (trial : Nat) (d : Design) (o : Outcome) (resp : Nat) : Row :=
  [("block", Cell.str ("prac")), ("trial", Cell.nat (trial + 1)),
   ("t_ss", Cell.rat d.t_ss), ("t_ll", Cell.rat d.t_ll),
   ("r_ss", Cell.rat d.r_ss), ("r_ll", Cell.rat d.r_ll),
   ("is_ll_on_left", Cell.nat (if o.is_ll_on_left then 1 else 0)),
   ("key_left", Cell.nat (if o.key_left then 1 else 0)),
   ("response", Cell.nat resp), ("rt", Cell.rat o.rt)]

/-- Row appended for main trial t (0-based loop index), with the four
posterior summaries read from the engine after engine.update. -/
def mainRow (trial : Nat) (d : Design) (o : Outcome) (resp : Nat)
    (mk mt sk stau : ℚ) : Row :=
  [("block", Cell.str ("main")), ("trial", Cell.nat (trial + 1)),
   ("t_ss", Cell.rat d.t_ss), ("t_ll", Cell.rat d.t_ll),
   ("r_ss", Cell.rat d.r_ss), ("r_ll", Cell.rat d.r_ll),
   ("is_ll_on_left", Cell.nat (if o.is_ll_on_left then 1 else 0)),
   ("key_left", Cell.nat (if o.key_left then 1 else 0)),
   ("response", Cell.nat resp), ("rt", Cell.rat o.rt),
   ("mean_k", Cell.rat mk), ("mean_tau", Cell.rat mt),
   ("sd_k", Cell.rat sk), ("sd_tau", Cell.rat stau)]

/-- One evaluation of the staircase branch at the top of the main loop.
On a block start (trial % 6 == 0) a fresh design is built from
delays[trial // 6] (none models Python's IndexError when that index is
out of range), r_ss restarts at 400 and delta resets to 200; otherwise
r_ss moves by delta according to the previous response and delta is
halved. -/
def staircase (trial : Nat) (design : Design) (delta : ℚ) (response : Nat) :
    Option (Design × ℚ) :=
  if trial % 6 = 0 then
    match delays[trial / 6]? with
    | none => none
    | some dly =>
      some ({ t_ss := 0, t_ll := dly, r_ss := 400, r_ll := 800 }, 200)
  else if response = 1 then
    some ({ design with r_ss := design.r_ss + delta }, delta / 2)
  else
    some ({ design with r_ss := design.r_ss - delta }, delta / 2)

/-- Practice loop from trial index i with the given number of remaining
trials.  Each completed trial appends its row and flushes the whole frame
(df_data.to_csv) before the next trial begins. -/
def runPracFrom (env : Env) : Nat → Nat → SessionState → RunResult
  | _, 0, st => .ok st
  | i, fuel + 1, st =>
    let d := env.randomDesign i
    match env.outcome i with
    | none => .failed .presenter i { st with design := d }
    | some o =>
      let resp := responseOf o.is_ll_on_left o.key_left
      let df := dfAppend st.df (pracRow i d o resp)
      runPracFrom env (i + 1) fuel
        { st with df := df, persisted := st.persisted ++ [df],
                  design := d, response := resp }

/-- Main loop from main-trial index t; the presenter is indexed globally
by np + t where np is the number of practice trials already run.  The
order within a trial follows the source: staircase branch, run_trial,
engine.update, posterior read, append, to_csv flush. -/
def runMainFrom (env : Env) (np : Nat) : Nat → Nat → SessionState → RunResult
  | _, 0, st => .ok st
  | t, fuel + 1, st =>
    match staircase t st.design st.delta st.response with
    | none => .failed .delayIndex (np + t) st
    | some p =>
      let st1 : SessionState := { st with design := p.1, delta := p.2 }
      match env.outcome (np + t) with
      | none => .failed .presenter (np + t) st1
      | some o =>
        let resp := responseOf o.is_ll_on_left o.key_left
        if env.updateOk t then
          let obs := st1.obs ++ [(p.1, resp)]
          let df := dfAppend st1.df
            (mainRow t p.1 o resp (env.postMean obs).1 (env.postMean obs).2
              (env.postSd obs).1 (env.postSd obs).2)
          runMainFrom env np (t + 1) fuel
            { st1 with obs := obs, df := df,
                       persisted := st1.persisted ++ [df], response := resp }
        else .failed .estimator (np + t) { st1 with response := resp }

/-- State before any trial: the empty frame with the declared columns, no
snapshots, no observations, delta = 200 (the module-level assignment).
The design and response fields stand in for Python variables that are
never read before being assigned: practice assigns both every iteration,
and main trial 0 is a block start, which reads neither. -/
def initState : SessionState :=
  { df := { cols := columns, rows := [] }, persisted := [], obs := [],
    design := { t_ss := 0, t_ll := 0, r_ss := 0, r_ll := 0 },
    delta := 200, response := 0 }

/-- Whole session: np practice trials, then nt main trials. -/
def runSession (env : Env) (np nt : Nat) : RunResult :=
  match runPracFrom env 0 np initState with
  | .ok st => runMainFrom env np 0 nt st
  | .failed h i st => .failed h i st

/-- Outcome the presenter returns at global trial i (defaulted when the
presenter fails there; only used on trials that did succeed). -/
def outAt (env : Env) (i : Nat) : Outcome :=
  (env.outcome i).getD { is_ll_on_left := false, key_left := false, rt := 0 }

/-- Response recorded at global trial i. -/
def respAt (env : Env) (i : Nat) : Nat :=
  responseOf (outAt env i).is_ll_on_left (outAt env i).key_left

/-- Design and delta presented at main trial t, obtained by iterating the
staircase branch of the source on the responses of the preceding trials. -/
def mainDesign (env : Env) (np : Nat) : Nat → Design × ℚ
  | 0 =>
    (staircase 0 { t_ss := 0, t_ll := 0, r_ss := 0, r_ll := 0 } 200 0).getD
      ({ t_ss := 0, t_ll := 0, r_ss := 0, r_ll := 0 }, 0)
  | t + 1 =>
    (staircase (t + 1) (mainDesign env np t).1 (mainDesign env np t).2
      (respAt env (np + t))).getD
      ({ t_ss := 0, t_ll := 0, r_ss := 0, r_ll := 0 }, 0)

/-- Observation handed to engine.update at main trial t. -/
def obsAt (env : Env) (np t : Nat) : Design × Nat :=
  ((mainDesign env np t).1, respAt env (np + t))

/-- The list [s, s+1, ..., s+n-1]. -/
def natsFrom : Nat → Nat → List Nat
  | _, 0 => []
  | s, n + 1 => s :: natsFrom (s + 1) n

/-- Observations handed to engine.update up to and including main trial t. -/
def obsUpTo (env : Env) (np t : Nat) : List (Design × Nat) :=
  (natsFrom 0 (t + 1)).map (obsAt env np)

/-- Row recorded for practice trial i. -/
def pracRowAt (env : Env) (i : Nat) : Row :=
  pracRow i (env.randomDesign i) (outAt env i) (respAt env i)

/-- Row recorded for main trial t. -/
def mainRowAt (env : Env) (np t : Nat) : Row :=
  mainRow t (mainDesign env np t).1 (outAt env (np + t)) (respAt env (np + t))
    (env.postMean (obsUpTo env np t)).1 (env.postMean (obsUpTo env np t)).2
    (env.postSd (obsUpTo env np t)).1 (env.postSd (obsUpTo env np t)).2

/-- Collaborators that never fail. -/
def TotalEnv (env : Env) : Prop :=
  (∀ i, (env.outcome i).isSome) ∧ (∀ t, env.updateOk t = true)

/-- State after a completed practice trial i, written exactly as the loop
body builds it. -/
def pracNext (env : Env) (i : Nat) (st : SessionState) : SessionState :=
  { st with
    df := dfAppend st.df (pracRowAt env i),
    persisted := st.persisted ++ [dfAppend st.df (pracRowAt env i)],
    design := env.randomDesign i,
    response := respAt env i }

/-- State after a completed main trial t, written exactly as the loop body
builds it. -/
def mainNext (env : Env) (np t : Nat) (st : SessionState) : SessionState :=
  let ob := st.obs ++ [obsAt env np t]
  let row := mainRow t (mainDesign env np t).1 (outAt env (np + t))
    (respAt env (np + t)) (env.postMean ob).1 (env.postMean ob).2
    (env.postSd ob).1 (env.postSd ob).2
  { st with
    df := dfAppend st.df row,
    persisted := st.persisted ++ [dfAppend st.df row],
    obs := ob,
    design := (mainDesign env np t).1,
    delta := (mainDesign env np t).2,
    response := respAt env (np + t) }

/-- Invariant coupling the loop state at the top of main trial t to the
derived trace: the observations so far, the current column labels, and
(once t is positive) the loop variables left by trial t - 1. -/
def MainInv (env : Env) (np t : Nat) (st : SessionState) : Prop :=
  st.obs = (natsFrom 0 t).map (obsAt env np) ∧
  st.df.cols = (if t = 0 then columns else columns14) ∧
  (t = 0 ∨ (st.design = (mainDesign env np (t - 1)).1 ∧
            st.delta = (mainDesign env np (t - 1)).2 ∧
            st.response = respAt env (np + (t - 1))))

/-- Flush invariant: one snapshot per recorded row, and the j-th snapshot
holds exactly the first j + 1 rows of the current frame. -/
def FlushedP (ps : List DF) (df : DF) : Prop :=
  ps.length = df.rows.length ∧
  ∀ j x, ps[j]? = some x → x.rows = df.rows.take (j + 1)

/-- Persistence contract of a run result: the flush invariant holds of the
final state, and the snapshot count is the number of completed trials
(n on normal completion, the global index of the failing trial on a halt). -/
def PersistOk (r : RunResult) (n : Nat) : Prop :=
  match r with
  | .ok st => FlushedP st.persisted st.df ∧ st.persisted.length = n
  | .failed _ g st => FlushedP st.persisted st.df ∧ st.persisted.length = g

/-- Deterministic always-successful collaborators, used as witnesses. -/
def envT : Env :=
  { randomDesign := fun _ => { t_ss := 0, t_ll := 2, r_ss := 400, r_ll := 800 },
    outcome := fun i =>
      some ({ is_ll_on_left := true, key_left := decide (i % 2 = 0), rt := 1 }),
    updateOk := fun _ => true,
    postMean := fun l => ((l.length : ℚ), 0),
    postSd := fun l => (0, (l.length : ℚ)) }

/-- Always-successful collaborators whose responses within each six-trial
main block are 1, 1, 1, 1, 1, 0. -/
def envC9 : Env :=
  { envT with
    outcome := fun i => some ({ is_ll_on_left := true, key_left := decide (i % 6 < 5), rt := 1 }) }

/-- Collaborators identical to envT except that the presenter fails at
global trial index 2. -/
def envF : Env :=
  { envT with outcome := fun i => if i = 2 then none else envT.outcome i }

/-! Basic facts about the enumeration helper. -/

theorem length_natsFrom (s n : Nat) : (natsFrom s n).length = n := by
  induction n generalizing s with
  | zero => rfl
  | succ n ih => simp [natsFrom, ih]

theorem natsFrom_getElem? (s n j : Nat) :
    (natsFrom s n)[j]? = if j < n then some (s + j) else none := by
  induction n generalizing s j with
  | zero => simp [natsFrom]
  | succ n ih =>
    cases j with
    | zero => simp [natsFrom]
    | succ j => simp [natsFrom, ih, Nat.succ_lt_succ_iff, Nat.add_assoc, Nat.add_comm 1 j]

theorem natsFrom_succ_right (s n : Nat) :
    natsFrom s (n + 1) = natsFrom s n ++ [s + n] := by
  induction n generalizing s with
  | zero => rfl
  | succ n ih =>
    show s :: natsFrom (s + 1) (n + 1) = (s :: natsFrom (s + 1) n) ++ [s + (n + 1)]
    rw [ih (s + 1)]
    simp [Nat.add_assoc, Nat.add_comm 1 n]

theorem mem_natsFrom {s n x : Nat} (h : x ∈ natsFrom s n) : s ≤ x ∧ x < s + n := by
  induction n generalizing s with
  | zero => simp [natsFrom] at h
  | succ n ih =>
    simp only [natsFrom, List.mem_cons] at h
    rcases h with rfl | h
    · omega
    · have := ih h; omega

/-! Column bookkeeping of dfAppend for the three row shapes of the
script: practice rows add no columns, the first main row adds sd_k and
sd_tau at the end, later main rows add nothing. -/

theorem dfAppend_prac (rows : List Row) (i : Nat) (d : Design) (o : Outcome)
    (resp : Nat) :
    dfAppend (DF.mk columns rows) (pracRow i d o resp) =
      DF.mk columns (rows ++ [pracRow i d o resp]) := rfl

theorem dfAppend_main12 (rows : List Row) (t : Nat) (d : Design) (o : Outcome)
    (resp : Nat) (a b c e : ℚ) :
    dfAppend (DF.mk columns rows) (mainRow t d o resp a b c e) =
      DF.mk columns14 (rows ++ [mainRow t d o resp a b c e]) := rfl

theorem dfAppend_main14 (rows : List Row) (t : Nat) (d : Design) (o : Outcome)
    (resp : Nat) (a b c e : ℚ) :
    dfAppend (DF.mk columns14 rows) (mainRow t d o resp a b c e) =
      DF.mk columns14 (rows ++ [mainRow t d o resp a b c e]) := rfl

/-! Cell lookups inside the two row shapes. -/

theorem lookup_pracRow_mean_k (i : Nat) (d : Design) (o : Outcome) (r : Nat) :
    List.lookup ("mean_k") (pracRow i d o r) = none := rfl

theorem lookup_pracRow_mean_tau (i : Nat) (d : Design) (o : Outcome) (r : Nat) :
    List.lookup ("mean_tau") (pracRow i d o r) = none := rfl

theorem lookup_pracRow_sd_k (i : Nat) (d : Design) (o : Outcome) (r : Nat) :
    List.lookup ("sd_k") (pracRow i d o r) = none := rfl

theorem lookup_pracRow_sd_tau (i : Nat) (d : Design) (o : Outcome) (r : Nat) :
    List.lookup ("sd_tau") (pracRow i d o r) = none := rfl

theorem lookup_pracRow_response (i : Nat) (d : Design) (o : Outcome) (r : Nat) :
    List.lookup ("response") (pracRow i d o r) = some (Cell.nat r) := rfl

theorem lookup_mainRow_t_ll (t : Nat) (d : Design) (o : Outcome) (r : Nat)
    (a b c e : ℚ) :
    List.lookup ("t_ll") (mainRow t d o r a b c e) = some (Cell.rat d.t_ll) := rfl

theorem lookup_mainRow_r_ss (t : Nat) (d : Design) (o : Outcome) (r : Nat)
    (a b c e : ℚ) :
    List.lookup ("r_ss") (mainRow t d o r a b c e) = some (Cell.rat d.r_ss) := rfl

theorem lookup_mainRow_response (t : Nat) (d : Design) (o : Outcome) (r : Nat)
    (a b c e : ℚ) :
    List.lookup ("response") (mainRow t d o r a b c e) = some (Cell.nat r) := rfl

theorem lookup_mainRow_block (t : Nat) (d : Design) (o : Outcome) (r : Nat)
    (a b c e : ℚ) :
    List.lookup ("block") (mainRow t d o r a b c e) = some (Cell.str ("main")) := rfl

theorem lookup_mainRow_mean_k (t : Nat) (d : Design) (o : Outcome) (r : Nat)
    (a b c e : ℚ) :
    List.lookup ("mean_k") (mainRow t d o r a b c e) = some (Cell.rat a) := rfl

theorem lookup_mainRow_mean_tau (t : Nat) (d : Design) (o : Outcome) (r : Nat)
    (a b c e : ℚ) :
    List.lookup ("mean_tau") (mainRow t d o r a b c e) = some (Cell.rat b) := rfl

theorem lookup_mainRow_sd_k (t : Nat) (d : Design) (o : Outcome) (r : Nat)
    (a b c e : ℚ) :
    List.lookup ("sd_k") (mainRow t d o r a b c e) = some (Cell.rat c) := rfl

theorem lookup_mainRow_sd_tau (t : Nat) (d : Design) (o : Outcome) (r : Nat)
    (a b c e : ℚ) :
    List.lookup ("sd_tau") (mainRow t d o r a b c e) = some (Cell.rat e) := rfl

/-- A total presenter returns exactly the default-stripped outcome. -/
theorem outcome_eq {env : Env} (hT : TotalEnv env) (i : Nat) :
    env.outcome i = some (outAt env i) := by
  rcases h : env.outcome i with _ | o
  · have := hT.1 i; rw [h] at this; simp at this
  · simp [outAt, h]

/-! Preservation of the flush invariant. -/

theorem FlushedP_step {ps : List DF} {df : DF} (row : Row)
    (h : FlushedP ps df) :
    FlushedP (ps ++ [dfAppend df row]) (dfAppend df row) := by
  obtain ⟨hlen, hsnap⟩ := h
  constructor
  · simp [dfAppend, hlen]
  · intro j x hj
    rcases Nat.lt_trichotomy j ps.length with hlt | heq | hgt
    · rw [List.getElem?_append_left hlt] at hj
      have hx := hsnap j x hj
      have hj1 : j + 1 ≤ df.rows.length := by omega
      show x.rows = (df.rows ++ [row]).take (j + 1)
      rw [List.take_append_of_le_length hj1, hx]
    · subst heq
      rw [List.getElem?_append_right (Nat.le_refl _)] at hj
      simp only [Nat.sub_self, List.getElem?_cons_zero] at hj
      cases hj
      show (df.rows ++ [row]) = (df.rows ++ [row]).take (ps.length + 1)
      rw [List.take_of_length_le (by simp [hlen])]
    · have : (ps ++ [dfAppend df row])[j]? = none := by
        apply List.getElem?_eq_none
        simp; omega
      rw [this] at hj; cases hj

/-- Flush contract of the practice loop: one snapshot per completed trial,
each snapshot holding exactly the rows recorded up to its trial. -/
theorem c2_prac_aux (env : Env) :
    ∀ fuel i st, FlushedP st.persisted st.df → st.persisted.length = i →
      PersistOk (runPracFrom env i fuel st) (i + fuel) := by
  intro fuel
  induction fuel with
  | zero => intro i st hF hlen; exact ⟨hF, by omega⟩
  | succ fuel ih =>
    intro i st hF hlen
    simp only [runPracFrom]
    rcases ho : env.outcome i with _ | o
    · exact ⟨hF, hlen⟩
    · have hstep := FlushedP_step
        (pracRow i (env.randomDesign i) o
          (responseOf o.is_ll_on_left o.key_left)) hF
      have := ih (i + 1)
        { st with
          df := dfAppend st.df (pracRow i (env.randomDesign i) o
            (responseOf o.is_ll_on_left o.key_left)),
          persisted := st.persisted ++ [dfAppend st.df (pracRow i (env.randomDesign i) o
            (responseOf o.is_ll_on_left o.key_left))],
          design := env.randomDesign i,
          response := responseOf o.is_ll_on_left o.key_left }
        hstep (by simp [hlen])
      have harr : i + 1 + fuel = i + (fuel + 1) := by omega
      rw [harr] at this
      exact this

/-- Flush contract of the main loop. -/
theorem c2_main_aux (env : Env) (np : Nat) :
    ∀ fuel t st, FlushedP st.persisted st.df → st.persisted.length = np + t →
      PersistOk (runMainFrom env np t fuel st) (np + t + fuel) := by
  intro fuel
  induction fuel with
  | zero => intro t st hF hlen; exact ⟨hF, by omega⟩
  | succ fuel ih =>
    intro t st hF hlen
    simp only [runMainFrom]
    rcases hs : staircase t st.design st.delta st.response with _ | p
    · exact ⟨hF, hlen⟩
    · rcases ho : env.outcome (np + t) with _ | o
      · exact ⟨hF, hlen⟩
      · rcases hu : env.updateOk t with _ | _
        · simp only [Bool.false_eq_true, if_false]
          exact ⟨hF, hlen⟩
        · simp only [if_true]
          have hstep := FlushedP_step
            (mainRow t p.1 o (responseOf o.is_ll_on_left o.key_left)
              (env.postMean (st.obs ++ [(p.1, responseOf o.is_ll_on_left o.key_left)])).1
              (env.postMean (st.obs ++ [(p.1, responseOf o.is_ll_on_left o.key_left)])).2
              (env.postSd (st.obs ++ [(p.1, responseOf o.is_ll_on_left o.key_left)])).1
              (env.postSd (st.obs ++ [(p.1, responseOf o.is_ll_on_left o.key_left)])).2) hF
          have := ih (t + 1)
            { st with
              design := p.1, delta := p.2,
              obs := st.obs ++ [(p.1, responseOf o.is_ll_on_left o.key_left)],
              df := dfAppend st.df (mainRow t p.1 o (responseOf o.is_ll_on_left o.key_left)
                (env.postMean (st.obs ++ [(p.1, responseOf o.is_ll_on_left o.key_left)])).1
                (env.postMean (st.obs ++ [(p.1, responseOf o.is_ll_on_left o.key_left)])).2
                (env.postSd (st.obs ++ [(p.1, responseOf o.is_ll_on_left o.key_left)])).1
                (env.postSd (st.obs ++ [(p.1, responseOf o.is_ll_on_left o.key_left)])).2),
              persisted := st.persisted ++ [dfAppend st.df (mainRow t p.1 o (responseOf o.is_ll_on_left o.key_left)
                (env.postMean (st.obs ++ [(p.1, responseOf o.is_ll_on_left o.key_left)])).1
                (env.postMean (st.obs ++ [(p.1, responseOf o.is_ll_on_left o.key_left)])).2
                (env.postSd (st.obs ++ [(p.1, responseOf o.is_ll_on_left o.key_left)])).1
                (env.postSd (st.obs ++ [(p.1, responseOf o.is_ll_on_left o.key_left)])).2)],
              response := responseOf o.is_ll_on_left o.key_left }
            hstep (by simp [hlen, Nat.add_assoc])
          have harr : np + (t + 1) + fuel = np + t + (fuel + 1) := by omega
          rw [harr] at this
          exact this

/-- Flush contract of the whole session. -/
theorem c2_session (env : Env) (np nt : Nat) :
    PersistOk (runSession env np nt) (np + nt) := by
  have h0 : FlushedP initState.persisted initState.df := by
    constructor
    · rfl
    · intro j x h; simp [initState] at h
  have hp := c2_prac_aux env np 0 initState h0 rfl
  rcases hr : runPracFrom env 0 np initState with st | ⟨h, i, st⟩
  · rw [hr] at hp
    obtain ⟨hF, hlen⟩ := hp
    have hm := c2_main_aux env np nt 0 st hF (by omega)
    have : runSession env np nt = runMainFrom env np 0 nt st := by
      simp [runSession, hr]
    rw [this]
    have harr : np + 0 + nt = np + nt := by omega
    rw [harr] at hm
    exact hm
  · rw [hr] at hp
    have : runSession env np nt = .failed h i st := by
      simp [runSession, hr]
    rw [this]
    exact hp

/-! The staircase branch, and the derived trace of presented designs. -/

theorem delays_getElem? (k : Nat) (h : k < 7) :
    delays[k]? = some (delays.getD k 0) := by
  interval_cases k <;> rfl

theorem staircase_blockStart (t : Nat) (d : Design) (dl : ℚ) (r : Nat)
    (h6 : t % 6 = 0) (h7 : t / 6 < 7) :
    staircase t d dl r =
      some ({ t_ss := 0, t_ll := delays.getD (t / 6) 0, r_ss := 400, r_ll := 800 },
        200) := by
  unfold staircase
  rw [if_pos h6, delays_getElem? _ h7]

theorem staircase_within (t : Nat) (d : Design) (dl : ℚ) (r : Nat)
    (h6 : t % 6 ≠ 0) :
    staircase t d dl r =
      some ((if r = 1 then { d with r_ss := d.r_ss + dl }
             else { d with r_ss := d.r_ss - dl }), dl / 2) := by
  unfold staircase
  rw [if_neg h6]
  by_cases hr : r = 1
  · rw [if_pos hr, if_pos hr]
  · rw [if_neg hr, if_neg hr]

theorem mainDesign_blockStart (env : Env) (np t : Nat) (h6 : t % 6 = 0)
    (h42 : t < 42) :
    mainDesign env np t =
      ({ t_ss := 0, t_ll := delays.getD (t / 6) 0, r_ss := 400, r_ll := 800 },
        200) := by
  have h7 : t / 6 < 7 := by omega
  cases t with
  | zero => rfl
  | succ t =>
    simp only [mainDesign]
    rw [staircase_blockStart _ _ _ _ h6 h7]
    rfl

theorem mainDesign_within (env : Env) (np t : Nat) (h6 : (t + 1) % 6 ≠ 0) :
    mainDesign env np (t + 1) =
      ((if respAt env (np + t) = 1
        then { (mainDesign env np t).1 with
               r_ss := (mainDesign env np t).1.r_ss + (mainDesign env np t).2 }
        else { (mainDesign env np t).1 with
               r_ss := (mainDesign env np t).1.r_ss - (mainDesign env np t).2 }),
       (mainDesign env np t).2 / 2) := by
  simp only [mainDesign]
  rw [staircase_within _ _ _ _ h6]
  rfl

theorem mainDesign_delta (env : Env) (np : Nat) :
    ∀ t, t < 42 → (mainDesign env np t).2 = 200 / 2 ^ (t % 6) := by
  intro t
  induction t with
  | zero =>
    intro _
    rw [mainDesign_blockStart env np 0 rfl (by omega)]
    norm_num
  | succ t ih =>
    intro h42
    by_cases h6 : (t + 1) % 6 = 0
    · rw [mainDesign_blockStart env np (t + 1) h6 h42, h6]
      norm_num
    · rw [mainDesign_within env np t h6]
      show (mainDesign env np t).2 / 2 = 200 / 2 ^ ((t + 1) % 6)
      have h7 : (t + 1) % 6 = t % 6 + 1 := by omega
      rw [ih (by omega), h7, pow_succ, div_div]

theorem mainDesign_delta_pos (env : Env) (np t : Nat) (h42 : t < 42) :
    0 < (mainDesign env np t).2 := by
  rw [mainDesign_delta env np t h42]
  positivity

theorem mainDesign_t_ll (env : Env) (np : Nat) :
    ∀ t, t < 42 → (mainDesign env np t).1.t_ll = delays.getD (t / 6) 0 := by
  intro t
  induction t with
  | zero =>
    intro _
    rw [mainDesign_blockStart env np 0 rfl (by omega)]
  | succ t ih =>
    intro h42
    by_cases h6 : (t + 1) % 6 = 0
    · rw [mainDesign_blockStart env np (t + 1) h6 h42]
    · rw [mainDesign_within env np t h6]
      have hdiv : (t + 1) / 6 = t / 6 := by omega
      rw [hdiv, ← ih (by omega)]
      by_cases hr : respAt env (np + t) = 1
      · rw [if_pos hr]
      · rw [if_neg hr]

theorem mainDesign_r_ss_bound (env : Env) (np : Nat) :
    ∀ t, t < 42 →
      |(mainDesign env np t).1.r_ss - 400| ≤ 400 - 2 * (mainDesign env np t).2 := by
  intro t
  induction t with
  | zero =>
    intro _
    rw [mainDesign_blockStart env np 0 rfl (by omega)]
    norm_num
  | succ t ih =>
    intro h42
    by_cases h6 : (t + 1) % 6 = 0
    · rw [mainDesign_blockStart env np (t + 1) h6 h42]
      norm_num
    · have hpos := mainDesign_delta_pos env np t (by omega)
      have hb := ih (by omega)
      rw [mainDesign_within env np t h6]
      rw [abs_le] at hb
      by_cases hr : respAt env (np + t) = 1
      · rw [if_pos hr]
        show |(mainDesign env np t).1.r_ss + (mainDesign env np t).2 - 400| ≤
          400 - 2 * ((mainDesign env np t).2 / 2)
        rw [abs_le]
        constructor <;> linarith [hb.1, hb.2]
      · rw [if_neg hr]
        show |(mainDesign env np t).1.r_ss - (mainDesign env np t).2 - 400| ≤
          400 - 2 * ((mainDesign env np t).2 / 2)
        rw [abs_le]
        constructor <;> linarith [hb.1, hb.2]

theorem mainDesign_r_ss_range (env : Env) (np t : Nat) (h42 : t < 42) :
    25 / 2 ≤ (mainDesign env np t).1.r_ss ∧
      (mainDesign env np t).1.r_ss ≤ 1575 / 2 := by
  have hb := mainDesign_r_ss_bound env np t h42
  have hd := mainDesign_delta env np t h42
  have h6 : t % 6 ≤ 5 := by omega
  have h2 : (2 : ℚ) ^ (t % 6) ≤ 2 ^ 5 := pow_le_pow_right₀ (by norm_num) h6
  have hdl : 200 / 32 ≤ (mainDesign env np t).2 := by
    rw [hd]
    gcongr
    norm_num at h2 ⊢
    exact h2
  rw [abs_le] at hb
  constructor <;> linarith [hb.1, hb.2]

/-! Coupling the loops to the derived trace. -/

theorem staircase_eq_mainDesign (env : Env) (np t : Nat) (st : SessionState)
    (hInv : MainInv env np t st) (h42 : t < 42) :
    staircase t st.design st.delta st.response = some (mainDesign env np t) := by
  obtain ⟨-, -, hc⟩ := hInv
  cases t with
  | zero => rfl
  | succ t =>
    rcases hc with h0 | ⟨hd, hdl, hr⟩
    · exact absurd h0 (Nat.succ_ne_zero t)
    · simp only [Nat.add_sub_cancel] at hd hdl hr
      rw [hd, hdl, hr]
      by_cases h6 : (t + 1) % 6 = 0
      · rw [staircase_blockStart _ _ _ _ h6 (by omega),
          mainDesign_blockStart env np (t + 1) h6 h42]
      · rw [staircase_within _ _ _ _ h6, mainDesign_within env np t h6]

theorem dfAppend_pracRowAt (env : Env) (i : Nat) (df : DF)
    (hcols : df.cols = columns) :
    dfAppend df (pracRowAt env i) = DF.mk columns (df.rows ++ [pracRowAt env i]) := by
  obtain ⟨cols, rows⟩ := df
  dsimp only at hcols
  subst hcols
  exact dfAppend_prac rows i _ _ _

theorem dfAppend_mainRowAt (env : Env) (np t : Nat) (df : DF)
    (hcols : df.cols = columns ∨ df.cols = columns14) :
    dfAppend df (mainRowAt env np t) =
      DF.mk columns14 (df.rows ++ [mainRowAt env np t]) := by
  obtain ⟨cols, rows⟩ := df
  rcases hcols with h | h <;> dsimp only at h <;> subst h
  · exact dfAppend_main12 rows t _ _ _ _ _ _ _
  · exact dfAppend_main14 rows t _ _ _ _ _ _ _

theorem runPrac_step (env : Env) (hT : TotalEnv env) (i fuel : Nat)
    (st : SessionState) :
    runPracFrom env i (fuel + 1) st =
      runPracFrom env (i + 1) fuel (pracNext env i st) := by
  rw [runPracFrom, outcome_eq hT i]
  rfl

theorem pracNext_fields (env : Env) (i : Nat) (st : SessionState)
    (hcols : st.df.cols = columns) :
    pracNext env i st =
      { st with
        design := env.randomDesign i,
        response := respAt env i,
        df := DF.mk columns (st.df.rows ++ [pracRowAt env i]),
        persisted := st.persisted ++ [DF.mk columns (st.df.rows ++ [pracRowAt env i])] } := by
  unfold pracNext
  rw [dfAppend_pracRowAt env i st.df hcols]

theorem runMain_step (env : Env) (hT : TotalEnv env) (np t fuel : Nat)
    (st : SessionState) (hInv : MainInv env np t st) (h42 : t < 42) :
    runMainFrom env np t (fuel + 1) st =
      runMainFrom env np (t + 1) fuel (mainNext env np t st) := by
  rw [runMainFrom, staircase_eq_mainDesign env np t st hInv h42,
    outcome_eq hT (np + t), hT.2 t]
  rfl

theorem mainNext_fields (env : Env) (np t : Nat) (st : SessionState)
    (hInv : MainInv env np t st) :
    mainNext env np t st =
      { st with
        design := (mainDesign env np t).1,
        delta := (mainDesign env np t).2,
        response := respAt env (np + t),
        obs := (natsFrom 0 (t + 1)).map (obsAt env np),
        df := DF.mk columns14 (st.df.rows ++ [mainRowAt env np t]),
        persisted := st.persisted ++
          [DF.mk columns14 (st.df.rows ++ [mainRowAt env np t])] } := by
  obtain ⟨hobs, hcols, -⟩ := hInv
  have hOB : st.obs ++ [obsAt env np t] = (natsFrom 0 (t + 1)).map (obsAt env np) := by
    rw [hobs, natsFrom_succ_right, List.map_append]
    norm_num
  have hc2 : st.df.cols = columns ∨ st.df.cols = columns14 := by
    by_cases ht : t = 0
    · left; rw [hcols, if_pos ht]
    · right; rw [hcols, if_neg ht]
  unfold mainNext
  simp only [hOB]
  show { st with
      df := dfAppend st.df (mainRowAt env np t),
      persisted := st.persisted ++ [dfAppend st.df (mainRowAt env np t)],
      obs := (natsFrom 0 (t + 1)).map (obsAt env np),
      design := (mainDesign env np t).1,
      delta := (mainDesign env np t).2,
      response := respAt env (np + t) } = _
  rw [dfAppend_mainRowAt env np t st.df hc2]

theorem MainInv_next (env : Env) (np t : Nat) (st : SessionState)
    (hInv : MainInv env np t st) :
    MainInv env np (t + 1) (mainNext env np t st) := by
  rw [mainNext_fields env np t st hInv]
  refine ⟨rfl, ?_, Or.inr ⟨rfl, rfl, rfl⟩⟩
  simp [Nat.succ_ne_zero]

/-! Characterization of the loops on successful runs. -/

theorem runPrac_char (env : Env) (hT : TotalEnv env) :
    ∀ fuel i st, st.df.cols = columns →
      ∃ st', runPracFrom env i fuel st = .ok st' ∧
        st'.df.cols = columns ∧
        st'.df.rows = st.df.rows ++ (natsFrom i fuel).map (pracRowAt env) ∧
        st'.obs = st.obs ∧
        st'.delta = st.delta ∧
        st'.persisted = st.persisted ++ (natsFrom i fuel).map
          (fun s => DF.mk columns
            (st.df.rows ++ (natsFrom i (s + 1 - i)).map (pracRowAt env))) := by
  intro fuel
  induction fuel with
  | zero =>
    intro i st hcols
    exact ⟨st, rfl, hcols, by simp [natsFrom], rfl, rfl, by simp [natsFrom]⟩
  | succ fuel ih =>
    intro i st hcols
    rw [runPrac_step env hT i fuel st]
    have hfld := pracNext_fields env i st hcols
    have hcolsN : (pracNext env i st).df.cols = columns := by rw [hfld]
    obtain ⟨st', hok, hcols', hrows', hobs', hdl', hpers'⟩ :=
      ih (i + 1) (pracNext env i st) hcolsN
    have hrowsN : (pracNext env i st).df.rows = st.df.rows ++ [pracRowAt env i] := by
      rw [hfld]
    have hobsN : (pracNext env i st).obs = st.obs := by rw [hfld]
    have hdlN : (pracNext env i st).delta = st.delta := by rw [hfld]
    have hpersN : (pracNext env i st).persisted =
        st.persisted ++ [DF.mk columns (st.df.rows ++ [pracRowAt env i])] := by
      rw [hfld]
    refine ⟨st', hok, hcols', ?_, ?_, ?_, ?_⟩
    · rw [hrows', hrowsN, List.append_assoc]
      rfl
    · rw [hobs', hobsN]
    · rw [hdl', hdlN]
    · rw [hpers', hpersN, hrowsN, List.append_assoc]
      congr 1
      have hmap : (natsFrom (i + 1) fuel).map
          (fun s => DF.mk columns
            ((st.df.rows ++ [pracRowAt env i]) ++
              (natsFrom (i + 1) (s + 1 - (i + 1))).map (pracRowAt env))) =
          (natsFrom (i + 1) fuel).map
          (fun s => DF.mk columns
            (st.df.rows ++ (natsFrom i (s + 1 - i)).map (pracRowAt env))) := by
        apply List.map_congr_left
        intro s hs
        have hsb := mem_natsFrom hs
        have h1 : s + 1 - i = (s - i) + 1 := by omega
        have h2 : s + 1 - (i + 1) = s - i := by omega
        have h3 : natsFrom i ((s - i) + 1) = i :: natsFrom (i + 1) (s - i) := rfl
        rw [h1, h2, h3, List.append_assoc]
        rfl
      rw [hmap]
      have h4 : natsFrom i (fuel + 1) = i :: natsFrom (i + 1) fuel := rfl
      rw [h4, List.map_cons]
      have h5 : i + 1 - i = 1 := by omega
      rw [h5]
      rfl

theorem runMain_char (env : Env) (hT : TotalEnv env) (np : Nat) :
    ∀ fuel t st, MainInv env np t st → t + fuel ≤ 42 →
      ∃ st', runMainFrom env np t fuel st = .ok st' ∧
        st'.df.cols = (if t + fuel = 0 then columns else columns14) ∧
        st'.df.rows = st.df.rows ++ (natsFrom t fuel).map (mainRowAt env np) ∧
        st'.obs = (natsFrom 0 (t + fuel)).map (obsAt env np) ∧
        st'.persisted = st.persisted ++ (natsFrom t fuel).map
          (fun s => DF.mk columns14
            (st.df.rows ++ (natsFrom t (s + 1 - t)).map (mainRowAt env np))) := by
  intro fuel
  induction fuel with
  | zero =>
    intro t st hInv hle
    refine ⟨st, rfl, ?_, by simp [natsFrom], ?_, by simp [natsFrom]⟩
    · exact hInv.2.1
    · exact hInv.1
  | succ fuel ih =>
    intro t st hInv hle
    have h42 : t < 42 := by omega
    rw [runMain_step env hT np t fuel st hInv h42]
    have hfld := mainNext_fields env np t st hInv
    obtain ⟨st', hok, hcols', hrows', hobs', hpers'⟩ :=
      ih (t + 1) (mainNext env np t st) (MainInv_next env np t st hInv) (by omega)
    have hrowsN : (mainNext env np t st).df.rows =
        st.df.rows ++ [mainRowAt env np t] := by rw [hfld]
    have hpersN : (mainNext env np t st).persisted =
        st.persisted ++ [DF.mk columns14 (st.df.rows ++ [mainRowAt env np t])] := by
      rw [hfld]
    refine ⟨st', hok, ?_, ?_, ?_, ?_⟩
    · rw [hcols', if_neg (by omega), if_neg (by omega)]
    · rw [hrows', hrowsN, List.append_assoc]
      rfl
    · rw [hobs']
      have : t + 1 + fuel = t + (fuel + 1) := by omega
      rw [this]
    · rw [hpers', hpersN, hrowsN, List.append_assoc]
      congr 1
      have hmap : (natsFrom (t + 1) fuel).map
          (fun s => DF.mk columns14
            ((st.df.rows ++ [mainRowAt env np t]) ++
              (natsFrom (t + 1) (s + 1 - (t + 1))).map (mainRowAt env np))) =
          (natsFrom (t + 1) fuel).map
          (fun s => DF.mk columns14
            (st.df.rows ++ (natsFrom t (s + 1 - t)).map (mainRowAt env np))) := by
        apply List.map_congr_left
        intro s hs
        have hsb := mem_natsFrom hs
        have h1 : s + 1 - t = (s - t) + 1 := by omega
        have h2 : s + 1 - (t + 1) = s - t := by omega
        have h3 : natsFrom t ((s - t) + 1) = t :: natsFrom (t + 1) (s - t) := rfl
        rw [h1, h2, h3, List.append_assoc]
        rfl
      rw [hmap]
      have h4 : natsFrom t (fuel + 1) = t :: natsFrom (t + 1) fuel := rfl
      rw [h4, List.map_cons]
      have h5 : t + 1 - t = 1 := by omega
      rw [h5]
      rfl

/-- Characterization of a successful whole session: the recorded rows, the
observations given to the estimator, and the persisted snapshots, as
functions of the collaborators. -/
theorem runSession_char (env : Env) (hT : TotalEnv env) (np nt : Nat)
    (hnt : nt ≤ 42) :
    ∃ st, runSession env np nt = .ok st ∧
      st.df.cols = (if nt = 0 then columns else columns14) ∧
      st.df.rows = (natsFrom 0 np).map (pracRowAt env) ++
        (natsFrom 0 nt).map (mainRowAt env np) ∧
      st.obs = (natsFrom 0 nt).map (obsAt env np) ∧
      st.persisted = (natsFrom 0 np).map
          (fun s => DF.mk columns ((natsFrom 0 (s + 1)).map (pracRowAt env))) ++
        (natsFrom 0 nt).map
          (fun s => DF.mk columns14 ((natsFrom 0 np).map (pracRowAt env) ++
            (natsFrom 0 (s + 1)).map (mainRowAt env np))) := by
  obtain ⟨st1, hok1, hcols1, hrows1, hobs1, -, hpers1⟩ :=
    runPrac_char env hT np 0 initState rfl
  have hrows1' : st1.df.rows = (natsFrom 0 np).map (pracRowAt env) := by
    rw [hrows1]; rfl
  have hobs1' : st1.obs = [] := by rw [hobs1]; rfl
  have hpers1' : st1.persisted = (natsFrom 0 np).map
      (fun s => DF.mk columns ((natsFrom 0 (s + 1)).map (pracRowAt env))) := by
    rw [hpers1]
    show (natsFrom 0 np).map _ = _
    apply List.map_congr_left
    intro s hs
    have h1 : s + 1 - 0 = s + 1 := by omega
    rw [h1]
    rfl
  have hInv0 : MainInv env np 0 st1 := by
    refine ⟨by rw [hobs1']; rfl, by rw [hcols1]; rfl, Or.inl rfl⟩
  obtain ⟨st2, hok2, hcols2, hrows2, hobs2, hpers2⟩ :=
    runMain_char env hT np nt 0 st1 hInv0 (by omega)
  refine ⟨st2, ?_, ?_, ?_, ?_, ?_⟩
  · rw [runSession, hok1]
    exact hok2
  · rw [hcols2, Nat.zero_add]
  · rw [hrows2, hrows1']
  · rw [hobs2, Nat.zero_add]
  · rw [hpers2, hpers1', hrows1']
    rfl

/-- Characterization transported to any state a successful session ends in. -/
theorem runSession_ok_char (env : Env) (hT : TotalEnv env) (np nt : Nat)
    (hnt : nt ≤ 42) (st : SessionState) (h : runSession env np nt = .ok st) :
    st.df.cols = (if nt = 0 then columns else columns14) ∧
    st.df.rows = (natsFrom 0 np).map (pracRowAt env) ++
      (natsFrom 0 nt).map (mainRowAt env np) ∧
    st.obs = (natsFrom 0 nt).map (obsAt env np) ∧
    st.persisted = (natsFrom 0 np).map
        (fun s => DF.mk columns ((natsFrom 0 (s + 1)).map (pracRowAt env))) ++
      (natsFrom 0 nt).map
        (fun s => DF.mk columns14 ((natsFrom 0 np).map (pracRowAt env) ++
          (natsFrom 0 (s + 1)).map (mainRowAt env np))) := by
  obtain ⟨st2, hok, hc, hr, ho, hp⟩ := runSession_char env hT np nt hnt
  rw [hok] at h
  injection h with he
  subst he
  exact ⟨hc, hr, ho, hp⟩

/-- Row of the final frame holding main trial t. -/
theorem runSession_row_main (env : Env) (hT : TotalEnv env) (np nt : Nat)
    (hnt : nt ≤ 42) (st : SessionState) (h : runSession env np nt = .ok st)
    (t : Nat) (ht : t < nt) :
    st.df.rows[np + t]? = some (mainRowAt env np t) := by
  obtain ⟨-, hrows, -, -⟩ := runSession_ok_char env hT np nt hnt st h
  have hlen : ((natsFrom 0 np).map (pracRowAt env)).length = np := by
    rw [List.length_map, length_natsFrom]
  rw [hrows, List.getElem?_append_right (by rw [hlen]; omega), hlen]
  have h2 : np + t - np = t := by omega
  rw [h2, List.getElem?_map, natsFrom_getElem?, if_pos ht]
  simp

/-- Row of the final frame holding practice trial p. -/
theorem runSession_row_prac (env : Env) (hT : TotalEnv env) (np nt : Nat)
    (hnt : nt ≤ 42) (st : SessionState) (h : runSession env np nt = .ok st)
    (p : Nat) (hp : p < np) :
    st.df.rows[p]? = some (pracRowAt env p) := by
  obtain ⟨-, hrows, -, -⟩ := runSession_ok_char env hT np nt hnt st h
  have hlen : ((natsFrom 0 np).map (pracRowAt env)).length = np := by
    rw [List.length_map, length_natsFrom]
  rw [hrows, List.getElem?_append_left (by rw [hlen]; omega)]
  rw [List.getElem?_map, natsFrom_getElem?, if_pos hp]
  simp

/-- Cell of the final frame at a main-trial row. -/
theorem runSession_cellAt_main (env : Env) (hT : TotalEnv env) (np nt : Nat)
    (hnt : nt ≤ 42) (st : SessionState) (h : runSession env np nt = .ok st)
    (t : Nat) (ht : t < nt) (c : String) :
    cellAt st.df (np + t) c = List.lookup c (mainRowAt env np t) := by
  rw [cellAt, runSession_row_main env hT np nt hnt st h t ht]
  rfl

/-- Cell of the final frame at a practice-trial row. -/
theorem runSession_cellAt_prac (env : Env) (hT : TotalEnv env) (np nt : Nat)
    (hnt : nt ≤ 42) (st : SessionState) (h : runSession env np nt = .ok st)
    (p : Nat) (hp : p < np) (c : String) :
    cellAt st.df p c = List.lookup c (pracRowAt env p) := by
  rw [cellAt, runSession_row_prac env hT np nt hnt st h p hp]
  rfl

/-- Number of rows of the final frame. -/
theorem runSession_rows_length (env : Env) (hT : TotalEnv env) (np nt : Nat)
    (hnt : nt ≤ 42) (st : SessionState) (h : runSession env np nt = .ok st) :
    st.df.rows.length = np + nt := by
  obtain ⟨-, hrows, -, -⟩ := runSession_ok_char env hT np nt hnt st h
  rw [hrows]
  simp [length_natsFrom]

/-- Reaching trial 42 of the main loop raises the delay IndexError. -/
theorem runMain_fail (env : Env) (hT : TotalEnv env) (np : Nat) :
    ∀ fuel t st, MainInv env np t st → t ≤ 42 → 42 < t + fuel →
      ∃ st', runMainFrom env np t fuel st = .failed Halt.delayIndex (np + 42) st' ∧
        st'.df.rows = st.df.rows ++ (natsFrom t (42 - t)).map (mainRowAt env np) := by
  intro fuel
  induction fuel with
  | zero => intro t st _ _ hlt; omega
  | succ fuel ih =>
    intro t st hInv hle hlt
    by_cases ht : t = 42
    · subst ht
      rw [runMainFrom]
      have hs : staircase 42 st.design st.delta st.response = none := by
        unfold staircase
        rw [if_pos (by norm_num)]
        rfl
      rw [hs]
      exact ⟨st, rfl, by simp [natsFrom]⟩
    · have h42 : t < 42 := by omega
      rw [runMain_step env hT np t fuel st hInv h42]
      obtain ⟨st', hfail, hrows'⟩ :=
        ih (t + 1) (mainNext env np t st) (MainInv_next env np t st hInv)
          (by omega) (by omega)
      refine ⟨st', hfail, ?_⟩
      have hrowsN : (mainNext env np t st).df.rows =
          st.df.rows ++ [mainRowAt env np t] := by
        rw [mainNext_fields env np t st hInv]
      rw [hrows', hrowsN, List.append_assoc]
      congr 1
      have h1 : 42 - t = (42 - (t + 1)) + 1 := by omega
      rw [h1]
      rfl

/-- A session asked for more than 42 main trials fails with the delay
IndexError at main trial 42, after the first 42 main trials recorded. -/
theorem runSession_over42 (env : Env) (hT : TotalEnv env) (np nt : Nat)
    (hnt : 42 < nt) :
    ∃ st, runSession env np nt = .failed Halt.delayIndex (np + 42) st ∧
      st.df.rows.length = np + 42 := by
  obtain ⟨st1, hok1, hcols1, hrows1, hobs1, -, -⟩ :=
    runPrac_char env hT np 0 initState rfl
  have hInv0 : MainInv env np 0 st1 := by
    refine ⟨by rw [hobs1]; rfl, by rw [hcols1]; rfl, Or.inl rfl⟩
  obtain ⟨st', hfail, hrows'⟩ := runMain_fail env hT np nt 0 st1 hInv0
    (by omega) (by omega)
  refine ⟨st', ?_, ?_⟩
  · rw [runSession, hok1]
    exact hfail
  · rw [hrows', hrows1]
    simp [length_natsFrom, initState]

/-- The witness collaborators never fail. -/
theorem totalEnvT : TotalEnv envT := ⟨fun _ => rfl, fun _ => rfl⟩

/-- The block-patterned witness collaborators never fail. -/
theorem totalEnvC9 : TotalEnv envC9 := ⟨fun _ => rfl, fun _ => rfl⟩

/-! Claim theorems. -/

/-- C1: the staircase transition, evaluated once per main-phase trial: on a
block start (trial index a multiple of 6, including the very first
main-phase trial) the presented design takes the next value of the fixed
delay sequence with r_ss = 400 and delta = 200; on a within-block trial
r_ss gains delta if the previous response was 1 and loses delta if it
was 0, and delta is halved, hence strictly decreases; and the session's
recorded t_ll and r_ss cells are exactly those of this transition. -/
theorem c1_staircase_transition :
    (∀ env np t, t % 6 = 0 → t < 42 →
      mainDesign env np t =
        ({ t_ss := 0, t_ll := delays.getD (t / 6) 0, r_ss := 400, r_ll := 800 },
          200)) ∧
    (∀ env np t, (t + 1) % 6 ≠ 0 →
      mainDesign env np (t + 1) =
        ((if respAt env (np + t) = 1
          then { (mainDesign env np t).1 with
                 r_ss := (mainDesign env np t).1.r_ss + (mainDesign env np t).2 }
          else { (mainDesign env np t).1 with
                 r_ss := (mainDesign env np t).1.r_ss - (mainDesign env np t).2 }),
         (mainDesign env np t).2 / 2)) ∧
    (∀ env np t, t + 1 < 42 → (t + 1) % 6 ≠ 0 →
      (mainDesign env np (t + 1)).2 < (mainDesign env np t).2) ∧
    (∀ env np nt st t, TotalEnv env → nt ≤ 42 →
      runSession env np nt = RunResult.ok st → t < nt →
      cellAt st.df (np + t) ("t_ll") = some (Cell.rat (mainDesign env np t).1.t_ll) ∧
      cellAt st.df (np + t) ("r_ss") = some (Cell.rat (mainDesign env np t).1.r_ss)) := by
  refine ⟨?_, ?_, ?_, ?_⟩
  · exact fun env np t => mainDesign_blockStart env np t
  · exact fun env np t => mainDesign_within env np t
  · intro env np t hlt h6
    rw [mainDesign_within env np t h6]
    show (mainDesign env np t).2 / 2 < (mainDesign env np t).2
    have := mainDesign_delta_pos env np t (by omega)
    linarith
  · intro env np nt st t hT hnt h ht
    constructor
    · rw [runSession_cellAt_main env hT np nt hnt st h t ht]
      exact lookup_mainRow_t_ll t _ _ _ _ _ _ _
    · rw [runSession_cellAt_main env hT np nt hnt st h t ht]
      exact lookup_mainRow_r_ss t _ _ _ _ _ _ _

/-- Witness for C1 at concrete inputs: block start at trial 6, strict
halving from trial 1 to 2, and the recorded cell at trial 3 of a run. -/
theorem c1_staircase_transition_witness :
    mainDesign envT 0 6 =
      ({ t_ss := 0, t_ll := delays.getD 1 0, r_ss := 400, r_ll := 800 }, 200) ∧
    (mainDesign envT 0 2).2 < (mainDesign envT 0 1).2 ∧
    cellAt (stateOf (runSession envT 0 6)).df (0 + 3) ("t_ll") =
      some (Cell.rat (mainDesign envT 0 3).1.t_ll) := by
  refine ⟨?_, ?_, ?_⟩
  · exact c1_staircase_transition.1 envT 0 6 (by norm_num) (by norm_num)
  · exact c1_staircase_transition.2.2.1 envT 0 1 (by norm_num) (by norm_num)
  · have hrun : runSession envT 0 6 = RunResult.ok (stateOf (runSession envT 0 6)) := by
      rfl
    exact (c1_staircase_transition.2.2.2 envT 0 6 (stateOf (runSession envT 0 6)) 3
      totalEnvT (by norm_num) hrun (by norm_num)).1

/-- C6: the recorded response is a pure function of (is_ll_on_left,
key_left): it is 1 exactly when the pressed side is the side showing the
larger-later option and 0 otherwise, and every recorded response cell of a
session, practice or main, is this function of that trial's outcome. -/
theorem c6_response_pure :
    (∀ ill kl : Bool, responseOf ill kl = (if kl = ill then 1 else 0)) ∧
    (∀ ill kl : Bool,
      (responseOf ill kl = 1 ↔ kl = ill) ∧ (responseOf ill kl = 0 ↔ kl ≠ ill)) ∧
    (∀ env np nt st, TotalEnv env → nt ≤ 42 →
      runSession env np nt = RunResult.ok st →
      (∀ p, p < np →
        cellAt st.df p ("response") = some (Cell.nat (respAt env p))) ∧
      (∀ t, t < nt →
        cellAt st.df (np + t) ("response") = some (Cell.nat (respAt env (np + t))))) := by
  refine ⟨by decide, by decide, ?_⟩
  intro env np nt st hT hnt h
  constructor
  · intro p hp
    rw [runSession_cellAt_prac env hT np nt hnt st h p hp]
    exact lookup_pracRow_response p _ _ _
  · intro t ht
    rw [runSession_cellAt_main env hT np nt hnt st h t ht]
    exact lookup_mainRow_response t _ _ _ _ _ _ _

/-- Witness for C6 at concrete inputs. -/
theorem c6_response_pure_witness :
    responseOf true true = 1 ∧
    cellAt (stateOf (runSession envT 1 2)).df (1 + 0) ("response") =
      some (Cell.nat (respAt envT (1 + 0))) := by
  constructor
  · rw [c6_response_pure.1 true true]
    rfl
  · have hrun : runSession envT 1 2 = RunResult.ok (stateOf (runSession envT 1 2)) := by
      rfl
    exact (c6_response_pure.2.2 envT 1 2 (stateOf (runSession envT 1 2)) totalEnvT
      (by norm_num) hrun).2 0 (by norm_num)

/-- C9: starting a block at r_ss = 400, delta = 200, the response sequence
1,1,1,1,1,0 produces the presented r_ss values 400, 600, 700, 750, 775,
787.5 over the six trials, in exact arithmetic, both in the staircase
trace and in the recorded r_ss cells of the session. -/
theorem c9_exact_values :
    ((mainDesign envC9 0 0).1.r_ss = 400 ∧
     (mainDesign envC9 0 1).1.r_ss = 600 ∧
     (mainDesign envC9 0 2).1.r_ss = 700 ∧
     (mainDesign envC9 0 3).1.r_ss = 750 ∧
     (mainDesign envC9 0 4).1.r_ss = 775 ∧
     (mainDesign envC9 0 5).1.r_ss = 1575 / 2) ∧
    (cellAt (stateOf (runSession envC9 0 6)).df 0 ("r_ss") = some (Cell.rat 400) ∧
     cellAt (stateOf (runSession envC9 0 6)).df 1 ("r_ss") = some (Cell.rat 600) ∧
     cellAt (stateOf (runSession envC9 0 6)).df 2 ("r_ss") = some (Cell.rat 700) ∧
     cellAt (stateOf (runSession envC9 0 6)).df 3 ("r_ss") = some (Cell.rat 750) ∧
     cellAt (stateOf (runSession envC9 0 6)).df 4 ("r_ss") = some (Cell.rat 775) ∧
     cellAt (stateOf (runSession envC9 0 6)).df 5 ("r_ss") =
       some (Cell.rat (1575 / 2))) := by
  have hr0 : respAt envC9 (0 + 0) = 1 := rfl
  have hr1 : respAt envC9 (0 + 1) = 1 := rfl
  have hr2 : respAt envC9 (0 + 2) = 1 := rfl
  have hr3 : respAt envC9 (0 + 3) = 1 := rfl
  have hr4 : respAt envC9 (0 + 4) = 1 := rfl
  have e0 : (mainDesign envC9 0 0).1.r_ss = 400 ∧ (mainDesign envC9 0 0).2 = 200 := by
    rw [mainDesign_blockStart envC9 0 0 rfl (by omega)]
    exact ⟨rfl, rfl⟩
  have s1 : (mainDesign envC9 0 (0 + 1)).1.r_ss = 600 ∧
      (mainDesign envC9 0 (0 + 1)).2 = 100 := by
    rw [mainDesign_within envC9 0 0 (by norm_num), if_pos hr0]
    constructor
    · show (mainDesign envC9 0 0).1.r_ss + (mainDesign envC9 0 0).2 = 600
      rw [e0.1, e0.2]; norm_num
    · show (mainDesign envC9 0 0).2 / 2 = 100
      rw [e0.2]; norm_num
  have e1 : (mainDesign envC9 0 1).1.r_ss = 600 := s1.1
  have d1 : (mainDesign envC9 0 1).2 = 100 := s1.2
  have s2 : (mainDesign envC9 0 (1 + 1)).1.r_ss = 700 ∧
      (mainDesign envC9 0 (1 + 1)).2 = 50 := by
    rw [mainDesign_within envC9 0 1 (by norm_num), if_pos hr1]
    constructor
    · show (mainDesign envC9 0 1).1.r_ss + (mainDesign envC9 0 1).2 = 700
      rw [e1, d1]; norm_num
    · show (mainDesign envC9 0 1).2 / 2 = 50
      rw [d1]; norm_num
  have e2 : (mainDesign envC9 0 2).1.r_ss = 700 := s2.1
  have d2 : (mainDesign envC9 0 2).2 = 50 := s2.2
  have s3 : (mainDesign envC9 0 (2 + 1)).1.r_ss = 750 ∧
      (mainDesign envC9 0 (2 + 1)).2 = 25 := by
    rw [mainDesign_within envC9 0 2 (by norm_num), if_pos hr2]
    constructor
    · show (mainDesign envC9 0 2).1.r_ss + (mainDesign envC9 0 2).2 = 750
      rw [e2, d2]; norm_num
    · show (mainDesign envC9 0 2).2 / 2 = 25
      rw [d2]; norm_num
  have e3 : (mainDesign envC9 0 3).1.r_ss = 750 := s3.1
  have d3 : (mainDesign envC9 0 3).2 = 25 := s3.2
  have s4 : (mainDesign envC9 0 (3 + 1)).1.r_ss = 775 ∧
      (mainDesign envC9 0 (3 + 1)).2 = 25 / 2 := by
    rw [mainDesign_within envC9 0 3 (by norm_num), if_pos hr3]
    constructor
    · show (mainDesign envC9 0 3).1.r_ss + (mainDesign envC9 0 3).2 = 775
      rw [e3, d3]; norm_num
    · show (mainDesign envC9 0 3).2 / 2 = 25 / 2
      rw [d3]
  have e4 : (mainDesign envC9 0 4).1.r_ss = 775 := s4.1
  have d4 : (mainDesign envC9 0 4).2 = 25 / 2 := s4.2
  have s5 : (mainDesign envC9 0 (4 + 1)).1.r_ss = 1575 / 2 ∧
      (mainDesign envC9 0 (4 + 1)).2 = 25 / 4 := by
    rw [mainDesign_within envC9 0 4 (by norm_num), if_pos hr4]
    constructor
    · show (mainDesign envC9 0 4).1.r_ss + (mainDesign envC9 0 4).2 = 1575 / 2
      rw [e4, d4]; norm_num
    · show (mainDesign envC9 0 4).2 / 2 = 25 / 4
      rw [d4]; norm_num
  have e5 : (mainDesign envC9 0 5).1.r_ss = 1575 / 2 := s5.1
  have hrun : runSession envC9 0 6 = RunResult.ok (stateOf (runSession envC9 0 6)) := rfl
  have cell : ∀ t, t < 6 →
      cellAt (stateOf (runSession envC9 0 6)).df (0 + t) ("r_ss") =
        some (Cell.rat (mainDesign envC9 0 t).1.r_ss) := by
    intro t ht
    exact (runSession_cellAt_main envC9 totalEnvC9 0 6 (by norm_num)
      (stateOf (runSession envC9 0 6)) hrun t ht ("r_ss")).trans
      (lookup_mainRow_r_ss t _ _ _ _ _ _ _)
  have c0 : cellAt (stateOf (runSession envC9 0 6)).df 0 ("r_ss") =
      some (Cell.rat (mainDesign envC9 0 0).1.r_ss) := cell 0 (by omega)
  have c1 : cellAt (stateOf (runSession envC9 0 6)).df 1 ("r_ss") =
      some (Cell.rat (mainDesign envC9 0 1).1.r_ss) := cell 1 (by omega)
  have c2 : cellAt (stateOf (runSession envC9 0 6)).df 2 ("r_ss") =
      some (Cell.rat (mainDesign envC9 0 2).1.r_ss) := cell 2 (by omega)
  have c3 : cellAt (stateOf (runSession envC9 0 6)).df 3 ("r_ss") =
      some (Cell.rat (mainDesign envC9 0 3).1.r_ss) := cell 3 (by omega)
  have c4 : cellAt (stateOf (runSession envC9 0 6)).df 4 ("r_ss") =
      some (Cell.rat (mainDesign envC9 0 4).1.r_ss) := cell 4 (by omega)
  have c5 : cellAt (stateOf (runSession envC9 0 6)).df 5 ("r_ss") =
      some (Cell.rat (mainDesign envC9 0 5).1.r_ss) := cell 5 (by omega)
  rw [e0.1] at c0
  rw [e1] at c1
  rw [e2] at c2
  rw [e3] at c3
  rw [e4] at c4
  rw [e5] at c5
  exact ⟨⟨e0.1, e1, e2, e3, e4, e5⟩, c0, c1, c2, c3, c4, c5⟩

/-- C4: for a main phase of 6 * 7 = 42 trials the recorded t_ll values are
consumed from the fixed delay sequence [1, 2, 4.3, 26, 52, 156, 520] in
order, each delay used for exactly the 6 consecutive trials of its block;
the sequence has 7 pairwise distinct entries, so no value repeats across
blocks and none is skipped. -/
theorem c4_delay_consumption (env : Env) (np : Nat) (st : SessionState)
    (hT : TotalEnv env) (h : runSession env np 42 = RunResult.ok st) :
    (∀ b, b < 7 → ∀ j, j < 6 →
      cellAt st.df (np + (6 * b + j)) ("t_ll") =
        some (Cell.rat (delays.getD b 0))) ∧
    delays.length = 7 ∧ delays.Nodup := by
  refine ⟨?_, rfl, ?_⟩
  · intro b hb j hj
    have hlt : 6 * b + j < 42 := by omega
    have hc := (runSession_cellAt_main env hT np 42 (by omega) st h
      (6 * b + j) hlt ("t_ll")).trans (lookup_mainRow_t_ll _ _ _ _ _ _ _ _)
    rw [mainDesign_t_ll env np (6 * b + j) hlt] at hc
    have hdiv : (6 * b + j) / 6 = b := by omega
    rw [hdiv] at hc
    exact hc
  · rw [delays]
    norm_num

/-- Witness for C4: trial 15 (block 2, position 3) of a concrete 42-trial
run shows the third delay value. -/
theorem c4_delay_consumption_witness :
    cellAt (stateOf (runSession envT 0 42)).df (0 + (6 * 2 + 3)) ("t_ll") =
      some (Cell.rat (delays.getD 2 0)) := by
  have hrun : runSession envT 0 42 = RunResult.ok (stateOf (runSession envT 0 42)) := rfl
  exact (c4_delay_consumption envT 0 (stateOf (runSession envT 0 42)) totalEnvT
    hrun).1 2 (by norm_num) 3 (by norm_num)

/-- C5: the estimator receives exactly one update per main trial, carrying
that trial's design and response, and the update precedes the posterior
read: each recorded posterior cell equals the posterior summary of the
observations up to and including that trial.  Practice trials never call
update and their posterior cells are absent. -/
theorem c5_update_before_read (env : Env) (np nt : Nat) (st : SessionState)
    (hT : TotalEnv env) (hnt : nt ≤ 42) (h : runSession env np nt = RunResult.ok st) :
    st.obs = (natsFrom 0 nt).map (obsAt env np) ∧
    (∀ p, p < np →
      cellAt st.df p ("mean_k") = none ∧ cellAt st.df p ("mean_tau") = none ∧
      cellAt st.df p ("sd_k") = none ∧ cellAt st.df p ("sd_tau") = none) ∧
    (∀ t, t < nt →
      cellAt st.df (np + t) ("mean_k") =
        some (Cell.rat (env.postMean (obsUpTo env np t)).1) ∧
      cellAt st.df (np + t) ("mean_tau") =
        some (Cell.rat (env.postMean (obsUpTo env np t)).2) ∧
      cellAt st.df (np + t) ("sd_k") =
        some (Cell.rat (env.postSd (obsUpTo env np t)).1) ∧
      cellAt st.df (np + t) ("sd_tau") =
        some (Cell.rat (env.postSd (obsUpTo env np t)).2) ∧
      st.obs[t]? = some (obsAt env np t) ∧
      cellAt st.df (np + t) ("r_ss") = some (Cell.rat (obsAt env np t).1.r_ss) ∧
      cellAt st.df (np + t) ("response") = some (Cell.nat (obsAt env np t).2)) := by
  obtain ⟨-, -, hobs, -⟩ := runSession_ok_char env hT np nt hnt st h
  refine ⟨hobs, ?_, ?_⟩
  · intro p hp
    exact ⟨(runSession_cellAt_prac env hT np nt hnt st h p hp
        ("mean_k")).trans (lookup_pracRow_mean_k p _ _ _),
      (runSession_cellAt_prac env hT np nt hnt st h p hp
        ("mean_tau")).trans (lookup_pracRow_mean_tau p _ _ _),
      (runSession_cellAt_prac env hT np nt hnt st h p hp
        ("sd_k")).trans (lookup_pracRow_sd_k p _ _ _),
      (runSession_cellAt_prac env hT np nt hnt st h p hp
        ("sd_tau")).trans (lookup_pracRow_sd_tau p _ _ _)⟩
  · intro t ht
    refine ⟨(runSession_cellAt_main env hT np nt hnt st h t ht
        ("mean_k")).trans (lookup_mainRow_mean_k t _ _ _ _ _ _ _),
      (runSession_cellAt_main env hT np nt hnt st h t ht
        ("mean_tau")).trans (lookup_mainRow_mean_tau t _ _ _ _ _ _ _),
      (runSession_cellAt_main env hT np nt hnt st h t ht
        ("sd_k")).trans (lookup_mainRow_sd_k t _ _ _ _ _ _ _),
      (runSession_cellAt_main env hT np nt hnt st h t ht
        ("sd_tau")).trans (lookup_mainRow_sd_tau t _ _ _ _ _ _ _),
      ?_,
      (runSession_cellAt_main env hT np nt hnt st h t ht
        ("r_ss")).trans (lookup_mainRow_r_ss t _ _ _ _ _ _ _),
      (runSession_cellAt_main env hT np nt hnt st h t ht
        ("response")).trans (lookup_mainRow_response t _ _ _ _ _ _ _)⟩
    rw [hobs, List.getElem?_map, natsFrom_getElem?, if_pos ht]
    simp

/-- Witness for C5 on a concrete run with one practice and three main
trials. -/
theorem c5_update_before_read_witness :
    (stateOf (runSession envT 1 3)).obs = (natsFrom 0 3).map (obsAt envT 1) ∧
    cellAt (stateOf (runSession envT 1 3)).df 0 ("mean_k") = none ∧
    cellAt (stateOf (runSession envT 1 3)).df (1 + 1) ("mean_k") =
      some (Cell.rat (envT.postMean (obsUpTo envT 1 1)).1) := by
  have hrun : runSession envT 1 3 = RunResult.ok (stateOf (runSession envT 1 3)) := rfl
  have hmain := c5_update_before_read envT 1 3 (stateOf (runSession envT 1 3))
    totalEnvT (by norm_num) hrun
  exact ⟨hmain.1, (hmain.2.1 0 (by norm_num)).1, (hmain.2.2 1 (by norm_num)).1⟩

/-- C7: at the end of a session with at least one main trial the persisted
table has one row per trial and exactly the fourteen columns block, trial,
t_ss, t_ll, r_ss, r_ll, is_ll_on_left, key_left, response, rt, mean_k,
mean_tau, sd_k, sd_tau in that order, with the last four blank on
practice rows and populated on every main row. -/
theorem c7_output_format (env : Env) (np nt : Nat) (st : SessionState)
    (hT : TotalEnv env) (hnt : nt ≤ 42) (h1 : 1 ≤ nt)
    (h : runSession env np nt = RunResult.ok st) :
    st.df.cols = ["block", "trial", "t_ss", "t_ll", "r_ss", "r_ll",
      "is_ll_on_left", "key_left", "response", "rt",
      "mean_k", "mean_tau", "sd_k", "sd_tau"] ∧
    st.df.rows.length = np + nt ∧
    (∀ p, p < np →
      cellAt st.df p ("mean_k") = none ∧ cellAt st.df p ("mean_tau") = none ∧
      cellAt st.df p ("sd_k") = none ∧ cellAt st.df p ("sd_tau") = none) ∧
    (∀ t, t < nt →
      (cellAt st.df (np + t) ("mean_k")).isSome = true ∧
      (cellAt st.df (np + t) ("mean_tau")).isSome = true ∧
      (cellAt st.df (np + t) ("sd_k")).isSome = true ∧
      (cellAt st.df (np + t) ("sd_tau")).isSome = true) := by
  obtain ⟨hcols, -, -, -⟩ := runSession_ok_char env hT np nt hnt st h
  refine ⟨?_, runSession_rows_length env hT np nt hnt st h, ?_, ?_⟩
  · rw [hcols, if_neg (by omega)]
    rfl
  · intro p hp
    exact ⟨(runSession_cellAt_prac env hT np nt hnt st h p hp
        ("mean_k")).trans (lookup_pracRow_mean_k p _ _ _),
      (runSession_cellAt_prac env hT np nt hnt st h p hp
        ("mean_tau")).trans (lookup_pracRow_mean_tau p _ _ _),
      (runSession_cellAt_prac env hT np nt hnt st h p hp
        ("sd_k")).trans (lookup_pracRow_sd_k p _ _ _),
      (runSession_cellAt_prac env hT np nt hnt st h p hp
        ("sd_tau")).trans (lookup_pracRow_sd_tau p _ _ _)⟩
  · intro t ht
    have h1 := (runSession_cellAt_main env hT np nt hnt st h t ht
      ("mean_k")).trans (lookup_mainRow_mean_k t _ _ _ _ _ _ _)
    have h2 := (runSession_cellAt_main env hT np nt hnt st h t ht
      ("mean_tau")).trans (lookup_mainRow_mean_tau t _ _ _ _ _ _ _)
    have h3 := (runSession_cellAt_main env hT np nt hnt st h t ht
      ("sd_k")).trans (lookup_mainRow_sd_k t _ _ _ _ _ _ _)
    have h4 := (runSession_cellAt_main env hT np nt hnt st h t ht
      ("sd_tau")).trans (lookup_mainRow_sd_tau t _ _ _ _ _ _ _)
    rw [h1, h2, h3, h4]
    exact ⟨rfl, rfl, rfl, rfl⟩

/-- Witness for C7 on a concrete run. -/
theorem c7_output_format_witness :
    (stateOf (runSession envT 1 2)).df.cols =
      ["block", "trial", "t_ss", "t_ll", "r_ss", "r_ll",
       "is_ll_on_left", "key_left", "response", "rt",
       "mean_k", "mean_tau", "sd_k", "sd_tau"] ∧
    (stateOf (runSession envT 1 2)).df.rows.length = 1 + 2 := by
  have hrun : runSession envT 1 2 = RunResult.ok (stateOf (runSession envT 1 2)) := rfl
  have hmain := c7_output_format envT 1 2 (stateOf (runSession envT 1 2)) totalEnvT
    (by norm_num) (by norm_num) hrun
  exact ⟨hmain.1, hmain.2.1⟩

/-- C10: every practice-phase flush writes a file whose column list is
exactly the twelve declared labels, with sd_k and sd_tau entirely absent;
the two sd labels first appear at the first main-phase flush, and every
main-phase flush carries the fourteen labels. -/
theorem c10_sd_columns (env : Env) (np nt : Nat) (st : SessionState)
    (hT : TotalEnv env) (hnt : nt ≤ 42) (h : runSession env np nt = RunResult.ok st) :
    st.persisted.length = np + nt ∧
    (∀ j, j < np → (st.persisted[j]?).map DF.cols =
      some ["block", "trial", "t_ss", "t_ll", "r_ss", "r_ll",
        "is_ll_on_left", "key_left", "response", "rt", "mean_k", "mean_tau"]) ∧
    ("sd_k" ∉ columns ∧ "sd_tau" ∉ columns) ∧
    (∀ j, np ≤ j → j < np + nt → (st.persisted[j]?).map DF.cols =
      some ["block", "trial", "t_ss", "t_ll", "r_ss", "r_ll",
        "is_ll_on_left", "key_left", "response", "rt",
        "mean_k", "mean_tau", "sd_k", "sd_tau"]) := by
  obtain ⟨-, -, -, hpers⟩ := runSession_ok_char env hT np nt hnt st h
  have hlen : ((natsFrom 0 np).map
      (fun s => DF.mk columns ((natsFrom 0 (s + 1)).map (pracRowAt env)))).length = np := by
    rw [List.length_map, length_natsFrom]
  refine ⟨?_, ?_, ?_, ?_⟩
  · rw [hpers]
    simp [length_natsFrom]
  · intro j hj
    rw [hpers, List.getElem?_append_left (by rw [hlen]; omega),
      List.getElem?_map, natsFrom_getElem?, if_pos hj]
    rfl
  · exact ⟨by decide, by decide⟩
  · intro j hj1 hj2
    rw [hpers, List.getElem?_append_right (by rw [hlen]; omega), hlen,
      List.getElem?_map, natsFrom_getElem?, if_pos (by omega)]
    rfl

/-- Witness for C10 on a concrete run with two practice flushes and two
main flushes. -/
theorem c10_sd_columns_witness :
    ((stateOf (runSession envT 2 2)).persisted[1]?).map DF.cols =
      some ["block", "trial", "t_ss", "t_ll", "r_ss", "r_ll",
        "is_ll_on_left", "key_left", "response", "rt", "mean_k", "mean_tau"] ∧
    ((stateOf (runSession envT 2 2)).persisted[2]?).map DF.cols =
      some ["block", "trial", "t_ss", "t_ll", "r_ss", "r_ll",
        "is_ll_on_left", "key_left", "response", "rt",
        "mean_k", "mean_tau", "sd_k", "sd_tau"] := by
  have hrun : runSession envT 2 2 = RunResult.ok (stateOf (runSession envT 2 2)) := rfl
  have hmain := c10_sd_columns envT 2 2 (stateOf (runSession envT 2 2)) totalEnvT
    (by norm_num) hrun
  exact ⟨hmain.2.1 1 (by norm_num), hmain.2.2.2 2 (by norm_num) (by norm_num)⟩

/-- C2: after every trial, practice or main, the full ordered record set
accumulated so far is written in full before the next trial begins: each
persisted snapshot j holds exactly the first j + 1 rows, with one snapshot
per completed trial; and when a collaborator call fails at global trial
index i (that is, at trial k = i + 1), exactly the i = k - 1 previously
completed trials remain durably persisted and are not rolled back. -/
theorem c2_flush_after_every_trial (env : Env) (np nt : Nat) :
    (∀ st, runSession env np nt = RunResult.ok st →
      st.persisted.length = np + nt ∧ st.df.rows.length = np + nt ∧
      ∀ j x, st.persisted[j]? = some x → x.rows = st.df.rows.take (j + 1)) ∧
    (∀ hh i st, runSession env np nt = RunResult.failed hh i st →
      st.persisted.length = i ∧ st.df.rows.length = i ∧
      ∀ j x, st.persisted[j]? = some x → x.rows = st.df.rows.take (j + 1)) := by
  have hPO := c2_session env np nt
  constructor
  · intro st h
    rw [h] at hPO
    simp only [PersistOk] at hPO
    obtain ⟨⟨hl, hsnap⟩, hlen⟩ := hPO
    exact ⟨hlen, by omega, hsnap⟩
  · intro hh i st h
    rw [h] at hPO
    simp only [PersistOk] at hPO
    obtain ⟨⟨hl, hsnap⟩, hlen⟩ := hPO
    exact ⟨hlen, by omega, hsnap⟩

/-- Witness for C2: a presenter failure at global trial 2 leaves exactly
the 2 previously completed trials persisted. -/
theorem c2_flush_after_every_trial_witness :
    (stateOf (runSession envF 0 5)).persisted.length = 2 ∧
    (stateOf (runSession envF 0 5)).df.rows.length = 2 := by
  have hrun : runSession envF 0 5 =
      RunResult.failed Halt.presenter 2 (stateOf (runSession envF 0 5)) := rfl
  have hm := (c2_flush_after_every_trial envF 0 5).2 Halt.presenter 2
    (stateOf (runSession envF 0 5)) hrun
  exact ⟨hm.1, hm.2.1⟩

/-- C3 counterexample: a main-phase count of 7, not aligned to the 6-trial
blocks, is not detected and not refused: the session completes normally,
runs all 7 main trials and records them (row 6 is a main-phase row). -/
theorem c3_counterexample :
    7 % 6 ≠ 0 ∧
    resultIsOk (runSession envT 0 7) = true ∧
    (stateOf (runSession envT 0 7)).df.rows.length = 7 ∧
    cellAt (stateOf (runSession envT 0 7)).df 6 ("block") =
      some (Cell.str ("main")) := by
  have hrun : runSession envT 0 7 = RunResult.ok (stateOf (runSession envT 0 7)) := rfl
  refine ⟨by norm_num, rfl, ?_, ?_⟩
  · exact runSession_rows_length envT totalEnvT 0 7 (by norm_num)
      (stateOf (runSession envT 0 7)) hrun
  · exact (runSession_cellAt_main envT totalEnvT 0 7 (by norm_num)
      (stateOf (runSession envT 0 7)) hrun 6 (by norm_num) ("block")).trans
      (lookup_mainRow_block 6 _ _ _ _ _ _ _)

/-- C3 amended: the script performs no alignment or delay-count check and
never refuses to start the main phase.  With successful collaborators any
requested count nt of at most 42 runs to completion, aligned or not, with
np + nt records; a count above 42 (more blocks than delay values) is not
detected before the phase either: the main phase starts and the session
fails only at main trial 42 with the delay IndexError, after recording 42
main-phase trials. -/
theorem c3_amended (env : Env) (np nt : Nat) (hT : TotalEnv env) :
    (nt ≤ 42 → ∃ st, runSession env np nt = RunResult.ok st ∧
      st.df.rows.length = np + nt) ∧
    (42 < nt → ∃ st,
      runSession env np nt = RunResult.failed Halt.delayIndex (np + 42) st ∧
      st.df.rows.length = np + 42) := by
  constructor
  · intro hnt
    obtain ⟨st, hok, -, -, -, -⟩ := runSession_char env hT np nt hnt
    exact ⟨st, hok, runSession_rows_length env hT np nt hnt st hok⟩
  · intro hnt
    exact runSession_over42 env hT np nt hnt

/-- Witness for C3 amended: nt = 7 completes with 7 records; nt = 43
fails with the delay IndexError at main trial 42. -/
theorem c3_amended_witness :
    (stateOf (runSession envT 0 7)).df.rows.length = 0 + 7 ∧
    (stateOf (runSession envT 0 43)).df.rows.length = 0 + 42 ∧
    runSession envT 0 43 =
      RunResult.failed Halt.delayIndex (0 + 42) (stateOf (runSession envT 0 43)) := by
  obtain ⟨st1, h1, hl1⟩ := (c3_amended envT 0 7 totalEnvT).1 (by norm_num)
  obtain ⟨st2, h2, hl2⟩ := (c3_amended envT 0 43 totalEnvT).2 (by norm_num)
  refine ⟨?_, ?_, ?_⟩
  · rw [h1]
    exact hl1
  · rw [h2]
    exact hl2
  · rw [h2]
    rfl

/-- C8 counterexample: the claimed overflow never happens.  For no
collaborators (hence no response sequence), no session and no main trial
does the recorded r_ss go negative or exceed r_ll = 800: the per-block
reset to 400 with delta = 200 and the halving of delta keep every
presented r_ss inside (0, 800). -/
theorem c8_counterexample :
    ¬ ∃ (env : Env) (np nt t : Nat) (st : SessionState) (q : ℚ),
        TotalEnv env ∧ nt ≤ 42 ∧ runSession env np nt = RunResult.ok st ∧
        t < nt ∧ cellAt st.df (np + t) ("r_ss") = some (Cell.rat q) ∧
        (q < 0 ∨ 800 < q) := by
  rintro ⟨env, np, nt, t, st, q, hT, hnt, h, ht, hcell, hq⟩
  have hc := (runSession_cellAt_main env hT np nt hnt st h t ht
    ("r_ss")).trans (lookup_mainRow_r_ss t _ _ _ _ _ _ _)
  rw [hcell] at hc
  injection hc with hc2
  injection hc2 with hc3
  obtain ⟨hlo, hhi⟩ := mainDesign_r_ss_range env np t (by omega)
  rw [← hc3] at hlo hhi
  rcases hq with hq | hq <;> linarith

/-- C8 amended: the staircase applies no floor or ceiling clamp: the
within-block update is exactly r_ss plus or minus delta.  Nevertheless no
presented design can violate the r_ss < r_ll ordering: every recorded
r_ss lies in the interval from 12.5 to 787.5, strictly between 0 and
r_ll = 800. -/
theorem c8_amended (env : Env) (np nt : Nat) (st : SessionState)
    (hT : TotalEnv env) (hnt : nt ≤ 42)
    (h : runSession env np nt = RunResult.ok st) :
    (∀ t d dl r, t % 6 ≠ 0 →
      staircase t d dl r =
        some ((if r = 1 then { d with r_ss := d.r_ss + dl }
               else { d with r_ss := d.r_ss - dl }), dl / 2)) ∧
    (∀ t q, t < nt → cellAt st.df (np + t) ("r_ss") = some (Cell.rat q) →
      25 / 2 ≤ q ∧ q ≤ 1575 / 2 ∧ 0 < q ∧ q < 800) := by
  constructor
  · exact fun t d dl r h6 => staircase_within t d dl r h6
  · intro t q ht hcell
    have hc := (runSession_cellAt_main env hT np nt hnt st h t ht
      ("r_ss")).trans (lookup_mainRow_r_ss t _ _ _ _ _ _ _)
    rw [hcell] at hc
    injection hc with hc2
    injection hc2 with hc3
    obtain ⟨hlo, hhi⟩ := mainDesign_r_ss_range env np t (by omega)
    rw [← hc3] at hlo hhi
    exact ⟨hlo, hhi, by linarith, by linarith⟩

/-- Witness for C8 amended: an unclamped within-block update at trial 1,
and the bounds at main trial 1 of a concrete run. -/
theorem c8_amended_witness :
    staircase 1 ({ t_ss := 0, t_ll := 1, r_ss := 400, r_ll := 800 }) 200 1 =
      some (({ t_ss := 0, t_ll := 1, r_ss := 400 + 200, r_ll := 800 }), 200 / 2) ∧
    (25 / 2 ≤ (mainDesign envT 0 1).1.r_ss ∧
     (mainDesign envT 0 1).1.r_ss ≤ 1575 / 2 ∧
     0 < (mainDesign envT 0 1).1.r_ss ∧ (mainDesign envT 0 1).1.r_ss < 800) := by
  have hrun : runSession envT 0 6 = RunResult.ok (stateOf (runSession envT 0 6)) := rfl
  have hca := c8_amended envT 0 6 (stateOf (runSession envT 0 6)) totalEnvT
    (by norm_num) hrun
  constructor
  · have hs := hca.1 1 ({ t_ss := 0, t_ll := 1, r_ss := 400, r_ll := 800 }) 200 1
      (by norm_num)
    rw [hs, if_pos rfl]
  · exact hca.2 1 (mainDesign envT 0 1).1.r_ss (by norm_num)
      ((runSession_cellAt_main envT totalEnvT 0 6 (by norm_num)
        (stateOf (runSession envT 0 6)) hrun 1 (by norm_num) ("r_ss")).trans
        (lookup_mainRow_r_ss 1 _ _ _ _ _ _ _))

end DDTask
